import Mathlib

/-!
Shallow embedding of the core logic of the SwiftAid emergency-response demo
(src/index.tsx): PCM sample encoding/decoding of the audio bridge, the
playback scheduling cursor, the route animator, the session state machine,
the live-session initialisation guard, and the compass bearing helper.

Machine arithmetic of the browser (IEEE doubles) is modelled over ℚ where the
computations are exact at the inputs of interest; the JavaScript conversion to
a signed 16-bit lane (ToInt16: truncation toward zero, then wrap modulo 2^16)
is made explicit, and the trigonometric bearing helper is modelled over ℝ.
-/

namespace SwiftAid

/-! ### Audio bridge: PCM sample encode / decode

Capture path (src/index.tsx lines 216-223):
  int16[i] = inputData[i] * 32768   -- Int16Array store, i.e. ToInt16
Playback path (lines 235-238):
  channelData[i] = dataInt16[i] / 32768.0
-/

/-- Truncation toward zero on ℚ, as JavaScript ToInteger does. -/
def truncQ (q : ℚ) : ℤ :=
  if 0 ≤ q then ⌊q⌋ else ⌈q⌉

/-- JavaScript ToInt16: wrap an integer modulo 2^16 into [-32768, 32767]. -/
def toInt16 (n : ℤ) : ℤ :=
  (n + 32768) % 65536 - 32768

/-- Capture-path encoding of one float sample: scale by 32768 and store into a
signed 16-bit lane (src/index.tsx line 219). -/
def encodeSample (x : ℚ) : ℤ :=
  toInt16 (truncQ (x * 32768))

/-- Playback-path decoding of one 16-bit sample: divide by 32768
(src/index.tsx line 238). -/
def decodeSample (n : ℤ) : ℚ :=
  (n : ℚ) / 32768

/-! ### Audio bridge: playback scheduling cursor

From src/index.tsx lines 242-244:
  nextStartTimeRef.current = Math.max(nextStartTimeRef.current, ctx.currentTime);
  s.start(nextStartTimeRef.current);
  nextStartTimeRef.current += buffer.duration;
-/

/-- Schedule one received chunk: given the cursor, the output-clock reading at
the moment of scheduling, and the chunk duration, return the scheduled start
time and the advanced cursor. -/
def scheduleChunk (cursor now dur : ℚ) : ℚ × ℚ :=
  (max cursor now, max cursor now + dur)

/-- The list of scheduled start times produced by a sequence of chunk
arrivals, each arrival being a pair (clock reading, duration). -/
def scheduleStarts (cursor : ℚ) : List (ℚ × ℚ) → List ℚ
  | [] => []
  | (now, dur) :: rest =>
      (scheduleChunk cursor now dur).1 :: scheduleStarts (scheduleChunk cursor now dur).2 rest

/-- The cursor value after a sequence of chunk arrivals. -/
def finalCursor (cursor : ℚ) : List (ℚ × ℚ) → ℚ
  | [] => cursor
  | (now, dur) :: rest => finalCursor (scheduleChunk cursor now dur).2 rest

/-! ### Route animator

From src/index.tsx lines 132-157: while the phase is active and
currentRouteIndex < fullRoute.length - 1, a 30 ms interval advances
progressInSegment by stepSize = 0.002; when the advanced progress reaches 1
only the segment index is incremented and the progress reset, otherwise the
interpolated position, the segment bearing and the ETA heuristic are set.
-/

/-- The state the animation interval reads and writes: segment index, progress
within the segment, ambulance position, ambulance bearing (left abstract: the
source computes it with transcendental functions, modelled separately), and
the displayed ETA in minutes. -/
structure AnimState (B : Type) where
  idx : ℕ
  progress : ℚ
  pos : ℚ × ℚ
  bearing : B
  eta : ℤ
deriving DecidableEq

/-- The fixed per-tick progress increment stepSize = 0.002
(src/index.tsx line 137). -/
def stepSize : ℚ := 1 / 500

/-- Linear interpolation of the two coordinates of a segment
(src/index.tsx lines 146-147). -/
def lerp (a b : ℚ × ℚ) (p : ℚ) : ℚ × ℚ :=
  (a.1 + (b.1 - a.1) * p, a.2 + (b.2 - a.2) * p)

/-- The ETA heuristic set on a non-boundary tick (src/index.tsx lines
150-151): remainingSegments = fullRoute.length - 1 - currentRouteIndex and
eta = max(1, ceil((remainingSegments - 1 + (1 - nextProgress)) * 3)). -/
def etaOf (len idx : ℕ) (nextProgress : ℚ) : ℤ :=
  max 1 ⌈(((len : ℚ) - 1 - idx) - 1 + (1 - nextProgress)) * 3⌉

/-- The interval-running condition currentRouteIndex < fullRoute.length - 1
(src/index.tsx line 134), stated without truncated subtraction. -/
def ticking {B : Type} (route : List (ℚ × ℚ)) (s : AnimState B) : Prop :=
  s.idx + 1 < route.length

instance {B : Type} (route : List (ℚ × ℚ)) (s : AnimState B) :
    Decidable (ticking route s) := by
  unfold ticking
  infer_instance

/-- One 30 ms animation tick (src/index.tsx lines 139-154): while the
interval-running condition holds, advance the progress; at a segment boundary
(advanced progress ≥ 1) only increment the segment index and reset the
progress; otherwise store the interpolated position, the bearing of the
current segment and the ETA. When the condition fails no interval runs and
the state is unchanged. -/
def tick {B : Type} (route : List (ℚ × ℚ)) (bear : ℚ × ℚ → ℚ × ℚ → B)
    (s : AnimState B) : AnimState B :=
  if s.idx + 1 < route.length then
    let a := route.getD s.idx (0, 0)
    let b := route.getD (s.idx + 1) (0, 0)
    let nextProgress := s.progress + stepSize
    if 1 ≤ nextProgress then
      { s with idx := s.idx + 1, progress := 0 }
    else
      { idx := s.idx
        progress := nextProgress
        pos := lerp a b nextProgress
        bearing := bear a b
        eta := etaOf route.length s.idx nextProgress }
  else s

/-- The animator state when the active phase starts: segment index 0, progress
0, the ambulance at the first waypoint (set when the route is created,
src/index.tsx line 126; the useState default is [51.515, -0.11]), the initial
bearing value and the initial ETA display 7 (src/index.tsx lines 72-81). -/
def initAnim {B : Type} (route : List (ℚ × ℚ)) (b0 : B) : AnimState B :=
  { idx := 0
    progress := 0
    pos := route.headD (51.515, -0.11)
    bearing := b0
    eta := 7 }

/-- The mock route constructed once geolocation resolves (src/index.tsx lines
114-123): four city-block corners ending at the user location. -/
def mockRoute (userLoc : ℚ × ℚ) : List (ℚ × ℚ) :=
  [ (userLoc.1 + 0.015, userLoc.2 + 0.015),
    (userLoc.1 + 0.015, userLoc.2 + 0.01),
    (userLoc.1 + 0.005, userLoc.2 + 0.01),
    (userLoc.1 + 0.005, userLoc.2),
    userLoc ]

/-- Boundary-state payload: the (position, bearing, eta) the animator carries
when it has just entered segment m (unchanged from the last computed tick of
the previous segment, or the initial display for m = 0). -/
def boundaryPayload {B : Type} (route : List (ℚ × ℚ)) (bear : ℚ × ℚ → ℚ × ℚ → B)
    (b0 : B) : ℕ → (ℚ × ℚ) × B × ℤ
  | 0 => (route.headD (51.515, -0.11), b0, 7)
  | m + 1 => (lerp (route.getD m (0, 0)) (route.getD (m + 1) (0, 0)) ((499 : ℚ) / 500),
              bear (route.getD m (0, 0)) (route.getD (m + 1) (0, 0)),
              etaOf route.length m ((499 : ℚ) / 500))

/-- Index of the tick whose computation the stored ETA (and pose) reflects:
boundary ticks store nothing, so at a tick multiple of 500 the stored values
are the ones computed one tick earlier. -/
def lastComputed (k : ℕ) : ℕ := if k % 500 = 0 then k - 1 else k

/-- A two-waypoint example route used by concrete witnesses. -/
def demoRoute : List (ℚ × ℚ) := [(0, 0), (3, 4)]

/-- A trivial bearing function used by concrete witnesses (the bearing helper
of the source is modelled over ℝ separately). -/
def zeroBearing : ℚ × ℚ → ℚ × ℚ → ℤ := fun _ _ => 0

/-- An example state one tick before a segment boundary, used by concrete
witnesses. -/
def demoBoundaryState : AnimState ℤ :=
  { idx := 0, progress := 499/500, pos := (9, 9), bearing := 0, eta := 5 }

/-! ### Session state machine -/

/-- A first-aid guidance tip (src/index.tsx lines 35-39). -/
structure FirstAidTip where
  title : String
  instruction : String
  category : String
deriving DecidableEq

/-- The coarse application phase: the source states are named 'idle',
'emergency' (the dispatching screen) and 'active' (src/index.tsx line 68). -/
inductive Phase
  | idle
  | dispatching
  | active
deriving DecidableEq

/-- The pieces of component state driven by the SOS scenario
(src/index.tsx lines 68-83). -/
structure UiState where
  phase : Phase
  aiSuggestions : List FirstAidTip
  isIncomingCall : Bool
deriving DecidableEq

/-- Initial component state (src/index.tsx lines 68-83). -/
def initialUi : UiState :=
  { phase := Phase.idle, aiSuggestions := [], isIncomingCall := false }

/-- An example state in the active phase, used to exercise triggerSOS from a
late phase. -/
def activeUi : UiState :=
  { phase := Phase.active, aiSuggestions := [], isIncomingCall := false }

/-- The fixed guidance tips installed when the dispatch timer fires
(src/index.tsx lines 163-167). -/
def dispatchTips : List FirstAidTip :=
  [ { title := "Apply Direct Pressure"
      instruction := "Use the cleanest available cloth and push down hard on the wound."
      category := "Trauma" },
    { title := "Elevate Area"
      instruction := "If possible, keep the injured limb above the level of the heart."
      category := "Trauma" },
    { title := "Monitor Airways"
      instruction := "Ensure the patient\x27s mouth is clear and they are breathing steadily."
      category := "Critical" } ]

/-- The synchronous effect of the SOS tap (src/index.tsx lines 159-161): the
phase is set to the dispatching screen and one dispatch timer is scheduled,
with no guard on the current phase. The second component counts the timers
scheduled synchronously by the call itself. -/
def triggerSOS (s : UiState) : UiState × ℕ :=
  ({ s with phase := Phase.dispatching }, 1)

/-- Timer events of the SOS scenario with their firing offsets in
milliseconds: the SOS tap itself at offset 0, the dispatch confirmation 2500
ms later, and the incoming call a further 3000 ms after that fires
(src/index.tsx lines 159-171; the inner setTimeout is scheduled only when the
2500 ms timer fires, so it fires at offset 2500 + 3000). -/
def sosEvents : List (ℕ × (UiState → UiState)) :=
  [ (0, fun s => { s with phase := Phase.dispatching }),
    (2500, fun s => { s with phase := Phase.active, aiSuggestions := dispatchTips }),
    (2500 + 3000, fun s => { s with isIncomingCall := true }) ]

/-- The component state t milliseconds after the SOS tap: all events due by t
have fired, in order. -/
def sosStateAt (s0 : UiState) (t : ℕ) : UiState :=
  (sosEvents.filter (fun e => decide (e.1 ≤ t))).foldl (fun s e => e.2 s) s0

/-! ### Live-session initialisation -/

/-- Resource-acquiring actions of initLiveSession, in program order
(src/index.tsx lines 195-249). -/
inductive InitAction
  | createInputContext
  | createOutputContext
  | requestMicrophone
  | bindVideoElement
  | openRemoteSession
deriving DecidableEq

/-- The sequence of resource-acquiring actions performed by initLiveSession
(src/index.tsx lines 195-249): a missing (or empty, hence falsy) API key
returns before anything is acquired; otherwise the two audio contexts are
created, the microphone is requested, and on grant the video element is bound
(when video is active) and the remote session is opened; a denied microphone
ends the attempt right after the request (the error is only logged). -/
def initLiveSession (apiKey : Option String) (micGranted isVideoActive : Bool) :
    List InitAction :=
  if (apiKey.getD "").isEmpty then []
  else
    [InitAction.createInputContext, InitAction.createOutputContext] ++
      if micGranted then
        [InitAction.requestMicrophone] ++
          (if isVideoActive then [InitAction.bindVideoElement] else []) ++
          [InitAction.openRemoteSession]
      else [InitAction.requestMicrophone]

/-! ### Compass bearing helper -/

/-- JavaScript Math.atan2(y, x), modelled as the argument of the complex
number x + y*i: range (-π, π], with atan2(0, 0) = 0. -/
noncomputable def atan2 (y x : ℝ) : ℝ := Complex.arg { re := x, im := y }

/-- JavaScript truncation toward zero on ℝ. -/
noncomputable def jsTrunc (x : ℝ) : ℤ := if 0 ≤ x then ⌊x⌋ else ⌈x⌉

/-- JavaScript remainder a % b (truncating division). -/
noncomputable def jsMod (a b : ℝ) : ℝ := a - b * jsTrunc (a / b)

/-- Compass bearing between two (lat, lng) points in degrees
(src/index.tsx lines 42-51). -/
noncomputable def getBearing (start finish : ℝ × ℝ) : ℝ :=
  let startLat := start.1 * Real.pi / 180
  let startLng := start.2 * Real.pi / 180
  let endLat := finish.1 * Real.pi / 180
  let endLng := finish.2 * Real.pi / 180
  let dLng := endLng - startLng
  let y := Real.sin dLng * Real.cos endLat
  let x := Real.cos startLat * Real.sin endLat
      - Real.sin startLat * Real.cos endLat * Real.cos dLng
  jsMod (atan2 y x * 180 / Real.pi + 360) 360

end SwiftAid

namespace SwiftAid

/-! ### Proofs: PCM round trip -/

lemma truncQ_abs_sub_lt_one (q : ℚ) : |q - (truncQ q : ℚ)| < 1 := by
  unfold truncQ
  split
  · rw [abs_sub_lt_iff]
    constructor
    · linarith [Int.sub_one_lt_floor q]
    · linarith [Int.floor_le q]
  · rw [abs_sub_lt_iff]
    constructor
    · linarith [Int.le_ceil q]
    · linarith [Int.ceil_lt_add_one q]

lemma toInt16_eq_self {n : ℤ} (h1 : -32768 ≤ n) (h2 : n < 32768) : toInt16 n = n := by
  unfold toInt16
  rw [Int.emod_eq_of_lt (by omega) (by omega)]
  omega

/-- Claim C1 (counterexample): at the sample x = 1 the capture-path store
wraps (1 * 32768 = 32768 becomes -32768 as a signed 16-bit value), so the
decoded value is -1 and the round-trip error is 2, far above 1/32768. -/
theorem C1_roundtrip_fails_at_one :
    decodeSample (encodeSample 1) = -1 ∧
    ¬ |(1 : ℚ) - decodeSample (encodeSample 1)| ≤ 1 / 32768 := by
  have ht : truncQ ((1 : ℚ) * 32768) = 32768 := by
    unfold truncQ
    rw [if_pos (by norm_num : (0:ℚ) ≤ 1 * 32768)]
    rw [show ((1:ℚ) * 32768) = ((32768 : ℤ) : ℚ) by norm_num]
    exact Int.floor_intCast 32768
  have he : encodeSample 1 = -32768 := by
    unfold encodeSample
    rw [ht]
    decide
  have hd : decodeSample (-32768) = -1 := by
    unfold decodeSample
    norm_num
  refine ⟨by rw [he]; exact hd, ?_⟩
  rw [he, hd]
  norm_num

/-- Claim C1 (amended): for every sample x with -1 ≤ x < 1, encoding to a
signed 16-bit sample on the capture path and decoding on the playback path
yields a value within 1/32768 of x. (At x = 1 the store wraps and the bound
fails.) -/
theorem C1_roundtrip_error_bound (x : ℚ) (h1 : -1 ≤ x) (h2 : x < 1) :
    |x - decodeSample (encodeSample x)| ≤ 1 / 32768 := by
  have hlow : (-32768 : ℚ) ≤ x * 32768 := by linarith
  have hhigh : x * 32768 < 32768 := by linarith
  have htl : -32768 ≤ truncQ (x * 32768) := by
    unfold truncQ
    split
    · have := Int.floor_le (x * 32768)
      have : (-32768 : ℤ) ≤ ⌊x * 32768⌋ := by
        apply Int.le_floor.mpr
        push_cast
        linarith
      omega
    · have hc : (-32768 : ℚ) ≤ (⌈x * 32768⌉ : ℚ) :=
        le_trans hlow (Int.le_ceil _)
      have : (-32768 : ℤ) ≤ ⌈x * 32768⌉ := by exact_mod_cast hc
      omega
  have hth : truncQ (x * 32768) < 32768 := by
    unfold truncQ
    split
    · have : ⌊x * 32768⌋ < (32768 : ℤ) := by
        apply Int.floor_lt.mpr
        push_cast
        linarith
      omega
    · next h =>
      push_neg at h
      have : ⌈x * 32768⌉ ≤ (0 : ℤ) := Int.ceil_le.mpr (by push_cast; linarith)
      omega
  have hid : encodeSample x = truncQ (x * 32768) := toInt16_eq_self htl hth
  have herr := truncQ_abs_sub_lt_one (x * 32768)
  rw [hid]
  unfold decodeSample
  rw [show x - (truncQ (x * 32768) : ℚ) / 32768
        = (x * 32768 - (truncQ (x * 32768) : ℚ)) / 32768 by ring]
  rw [abs_div]
  rw [abs_of_pos (by norm_num : (0:ℚ) < 32768)]
  have hb : |x * 32768 - (truncQ (x * 32768) : ℚ)| ≤ 1 := le_of_lt herr
  exact (div_le_div_iff_of_pos_right (by norm_num : (0:ℚ) < 32768)).mpr hb

/-- Witness for C1_roundtrip_error_bound at x = 1/3. -/
theorem C1_roundtrip_error_bound_witness :
    (-1 : ℚ) ≤ 1/3 ∧ (1/3 : ℚ) < 1 ∧
    |(1/3 : ℚ) - decodeSample (encodeSample (1/3))| ≤ 1 / 32768 :=
  ⟨by norm_num, by norm_num, C1_roundtrip_error_bound (1/3) (by norm_num) (by norm_num)⟩

/-! ### Proofs: playback scheduling -/

lemma scheduleStarts_length (chunks : List (ℚ × ℚ)) :
    ∀ c : ℚ, (scheduleStarts c chunks).length = chunks.length := by
  induction chunks with
  | nil => intro c; rfl
  | cons hd tl ih =>
      obtain ⟨now, dur⟩ := hd
      intro c
      simp [scheduleStarts, ih]

lemma finalCursor_ge (chunks : List (ℚ × ℚ)) :
    ∀ c : ℚ, (∀ p ∈ chunks, 0 ≤ p.2) → c ≤ finalCursor c chunks := by
  induction chunks with
  | nil => intro c _; exact le_refl c
  | cons hd tl ih =>
      obtain ⟨now, dur⟩ := hd
      intro c hdur
      have h0 : (0:ℚ) ≤ dur := hdur (now, dur) (List.mem_cons_self _ _)
      have hstep : c ≤ (scheduleChunk c now dur).2 := by
        unfold scheduleChunk
        have := le_max_left c now
        dsimp only
        linarith
      have htl : (scheduleChunk c now dur).2 ≤ finalCursor (scheduleChunk c now dur).2 tl :=
        ih _ (fun p hp => hdur p (List.mem_cons_of_mem _ hp))
      calc c ≤ (scheduleChunk c now dur).2 := hstep
        _ ≤ finalCursor (scheduleChunk c now dur).2 tl := htl
        _ = finalCursor c ((now, dur) :: tl) := rfl

lemma scheduleStarts_spec (chunks : List (ℚ × ℚ)) :
    ∀ c0 : ℚ,
      (∀ i, i < chunks.length →
          (chunks.getD i (0, 0)).1 ≤ (scheduleStarts c0 chunks).getD i 0) ∧
      (∀ i, i + 1 < chunks.length →
          (scheduleStarts c0 chunks).getD i 0 + (chunks.getD i (0, 0)).2
            ≤ (scheduleStarts c0 chunks).getD (i + 1) 0) := by
  induction chunks with
  | nil =>
      intro c0
      constructor <;> intro i hi <;> simp at hi
  | cons hd tl ih =>
      obtain ⟨now, dur⟩ := hd
      intro c0
      constructor
      · intro i hi
        cases i with
        | zero =>
            simp [scheduleStarts, scheduleChunk]
        | succ j =>
            simp only [scheduleStarts, List.getD_cons_succ]
            exact (ih _).1 j (by simp only [List.length_cons] at hi; omega)
      · intro i hi
        cases i with
        | zero =>
            cases tl with
            | nil => simp at hi
            | cons hd2 tl2 =>
                obtain ⟨now2, dur2⟩ := hd2
                simp [scheduleStarts, scheduleChunk]
        | succ j =>
            simp only [scheduleStarts, List.getD_cons_succ]
            exact (ih _).2 j (by simp only [List.length_cons] at hi; omega)

/-- Claim C3: the scheduled start time of each received chunk is at least the
end time (start plus duration) of the previously scheduled chunk and at least
the output-clock reading at the moment of scheduling, and the next-start-time
cursor never decreases across chunk arrivals. -/
theorem C3_playback_scheduling (c0 : ℚ) (chunks : List (ℚ × ℚ))
    (hdur : ∀ p ∈ chunks, 0 ≤ p.2) :
    (∀ i, i < chunks.length →
        (chunks.getD i (0, 0)).1 ≤ (scheduleStarts c0 chunks).getD i 0) ∧
    (∀ i, i + 1 < chunks.length →
        (scheduleStarts c0 chunks).getD i 0 + (chunks.getD i (0, 0)).2
          ≤ (scheduleStarts c0 chunks).getD (i + 1) 0) ∧
    (∀ c now dur : ℚ, 0 ≤ dur → c ≤ (scheduleChunk c now dur).2) ∧
    c0 ≤ finalCursor c0 chunks := by
  refine ⟨(scheduleStarts_spec chunks c0).1, (scheduleStarts_spec chunks c0).2, ?_, ?_⟩
  · intro c now dur hd
    unfold scheduleChunk
    have := le_max_left c now
    dsimp only
    linarith
  · exact finalCursor_ge chunks c0 hdur

/-- Witness for C3_playback_scheduling on a concrete two-chunk arrival trace. -/
theorem C3_playback_scheduling_witness :
    (∀ p ∈ [((5:ℚ), (1:ℚ)), (0, 2)], 0 ≤ p.2) ∧
    ((∀ i, i < ([((5:ℚ), (1:ℚ)), (0, 2)]).length →
        (([((5:ℚ), (1:ℚ)), (0, 2)]).getD i (0, 0)).1
          ≤ (scheduleStarts 0 [((5:ℚ), (1:ℚ)), (0, 2)]).getD i 0) ∧
     (∀ i, i + 1 < ([((5:ℚ), (1:ℚ)), (0, 2)]).length →
        (scheduleStarts 0 [((5:ℚ), (1:ℚ)), (0, 2)]).getD i 0
            + (([((5:ℚ), (1:ℚ)), (0, 2)]).getD i (0, 0)).2
          ≤ (scheduleStarts 0 [((5:ℚ), (1:ℚ)), (0, 2)]).getD (i + 1) 0) ∧
     (∀ c now dur : ℚ, 0 ≤ dur → c ≤ (scheduleChunk c now dur).2) ∧
     (0 : ℚ) ≤ finalCursor 0 [((5:ℚ), (1:ℚ)), (0, 2)]) := by
  have hdur : ∀ p ∈ [((5:ℚ), (1:ℚ)), (0, 2)], 0 ≤ p.2 := by
    intro p hp
    fin_cases hp <;> norm_num
  exact ⟨hdur, C3_playback_scheduling 0 [((5:ℚ), (1:ℚ)), (0, 2)] hdur⟩

/-! ### Proofs: route animator -/

lemma tick_terminal {B : Type} (route : List (ℚ × ℚ)) (bear : ℚ × ℚ → ℚ × ℚ → B)
    (s : AnimState B) (h : ¬ s.idx + 1 < route.length) :
    tick route bear s = s := by
  unfold tick
  rw [if_neg h]

lemma tick_boundary {B : Type} (route : List (ℚ × ℚ)) (bear : ℚ × ℚ → ℚ × ℚ → B)
    (s : AnimState B) (h : s.idx + 1 < route.length)
    (hp : 1 ≤ s.progress + stepSize) :
    tick route bear s = { s with idx := s.idx + 1, progress := 0 } := by
  unfold tick
  rw [if_pos h, if_pos hp]

lemma tick_mid_eq {B : Type} (route : List (ℚ × ℚ)) (bear : ℚ × ℚ → ℚ × ℚ → B)
    (s : AnimState B) (m : ℕ) (p : ℚ)
    (hidx : s.idx = m) (hprog : s.progress = p)
    (h : m + 1 < route.length) (hp : ¬ 1 ≤ p + stepSize) :
    tick route bear s =
      { idx := m
        progress := p + stepSize
        pos := lerp (route.getD m (0, 0)) (route.getD (m + 1) (0, 0)) (p + stepSize)
        bearing := bear (route.getD m (0, 0)) (route.getD (m + 1) (0, 0))
        eta := etaOf route.length m (p + stepSize) } := by
  subst hidx
  subst hprog
  unfold tick
  rw [if_pos h, if_neg hp]

lemma div500_succ (n : ℕ) : (n : ℚ) / 500 + stepSize = ((n + 1 : ℕ) : ℚ) / 500 := by
  push_cast
  unfold stepSize
  ring

lemma div500_lt_one {n : ℕ} (h : n ≤ 499) : (n : ℚ) / 500 < 1 := by
  rw [div_lt_one (by norm_num : (0:ℚ) < 500)]
  exact_mod_cast (by omega : n < 500)

lemma seg_run {B : Type} (route : List (ℚ × ℚ)) (bear : ℚ × ℚ → ℚ × ℚ → B)
    (s : AnimState B) (m : ℕ) (hidx : s.idx = m) (hprog : s.progress = 0)
    (h : m + 1 < route.length) :
    ∀ j : ℕ, 1 ≤ j → j ≤ 499 →
      (tick route bear)^[j] s =
        { idx := m
          progress := (j : ℚ) / 500
          pos := lerp (route.getD m (0, 0)) (route.getD (m + 1) (0, 0)) ((j : ℚ) / 500)
          bearing := bear (route.getD m (0, 0)) (route.getD (m + 1) (0, 0))
          eta := etaOf route.length m ((j : ℚ) / 500) } := by
  intro j
  induction j with
  | zero => intro h1 _; exact absurd h1 (by omega)
  | succ n ih =>
      intro _ h2
      rcases Nat.eq_zero_or_pos n with hn | hn
      · subst hn
        rw [Function.iterate_one]
        rw [tick_mid_eq route bear s m 0 hidx hprog h
            (by norm_num [stepSize])]
        rw [show (0 : ℚ) + stepSize = ((1 : ℕ) : ℚ) / 500 by norm_num [stepSize]]
      · rw [Function.iterate_succ_apply']
        rw [ih hn (by omega)]
        rw [tick_mid_eq route bear _ m ((n : ℚ) / 500) rfl rfl h
            (by rw [div500_succ]; exact not_le.mpr (div500_lt_one (by omega)))]
        rw [div500_succ]

lemma seg_complete {B : Type} (route : List (ℚ × ℚ)) (bear : ℚ × ℚ → ℚ × ℚ → B)
    (s : AnimState B) (m : ℕ) (hidx : s.idx = m) (hprog : s.progress = 0)
    (h : m + 1 < route.length) :
    (tick route bear)^[500] s =
      { idx := m + 1
        progress := 0
        pos := lerp (route.getD m (0, 0)) (route.getD (m + 1) (0, 0)) ((499 : ℚ) / 500)
        bearing := bear (route.getD m (0, 0)) (route.getD (m + 1) (0, 0))
        eta := etaOf route.length m ((499 : ℚ) / 500) } := by
  rw [show (500 : ℕ) = 499 + 1 from rfl, Function.iterate_succ_apply']
  rw [seg_run route bear s m hidx hprog h 499 (by omega) (le_refl _)]
  rw [tick_boundary route bear _ h
      (by
        show (1 : ℚ) ≤ ((499 : ℕ) : ℚ) / 500 + stepSize
        norm_num [stepSize])]
  push_cast
  rfl

lemma run_boundary {B : Type} (route : List (ℚ × ℚ)) (bear : ℚ × ℚ → ℚ × ℚ → B)
    (b0 : B) :
    ∀ m : ℕ, m < route.length →
      (tick route bear)^[m * 500] (initAnim route b0) =
        { idx := m
          progress := 0
          pos := (boundaryPayload route bear b0 m).1
          bearing := (boundaryPayload route bear b0 m).2.1
          eta := (boundaryPayload route bear b0 m).2.2 } := by
  intro m
  induction m with
  | zero => intro _; rfl
  | succ n ih =>
      intro hlt
      have hn : n < route.length := by omega
      rw [show (n + 1) * 500 = 500 + n * 500 by ring, Function.iterate_add_apply]
      rw [ih hn]
      rw [seg_complete route bear _ n rfl rfl hlt]
      simp [boundaryPayload]

lemma run_mid {B : Type} (route : List (ℚ × ℚ)) (bear : ℚ × ℚ → ℚ × ℚ → B)
    (b0 : B) (m j : ℕ) (h : m + 1 < route.length) (hj1 : 1 ≤ j) (hj2 : j ≤ 499) :
    (tick route bear)^[m * 500 + j] (initAnim route b0) =
      { idx := m
        progress := (j : ℚ) / 500
        pos := lerp (route.getD m (0, 0)) (route.getD (m + 1) (0, 0)) ((j : ℚ) / 500)
        bearing := bear (route.getD m (0, 0)) (route.getD (m + 1) (0, 0))
        eta := etaOf route.length m ((j : ℚ) / 500) } := by
  rw [show m * 500 + j = j + m * 500 by ring, Function.iterate_add_apply]
  rw [run_boundary route bear b0 m (by omega)]
  exact seg_run route bear _ m rfl rfl h j hj1 hj2

lemma run_fix {B : Type} (route : List (ℚ × ℚ)) (bear : ℚ × ℚ → ℚ × ℚ → B)
    (s : AnimState B) (h : ¬ s.idx + 1 < route.length) :
    ∀ n : ℕ, (tick route bear)^[n] s = s := by
  intro n
  induction n with
  | zero => rfl
  | succ n ih => rw [Function.iterate_succ_apply', ih, tick_terminal route bear s h]

/-- Claim C2: with at least two waypoints the animator, after exactly
(route.length - 1) * 500 ticks in the active phase, has the final waypoint as
its current waypoint and the interval-running condition has failed (terminal
state: no further ticking), the condition having held on every earlier tick;
and with zero or one waypoint the tick is the identity, so no motion occurs
at all. -/
theorem C2_animator_termination {B : Type} (route : List (ℚ × ℚ))
    (bear : ℚ × ℚ → ℚ × ℚ → B) (b0 : B) :
    (2 ≤ route.length →
      ((tick route bear)^[(route.length - 1) * 500] (initAnim route b0)).idx
          = route.length - 1 ∧
      ¬ ticking route ((tick route bear)^[(route.length - 1) * 500] (initAnim route b0)) ∧
      (∀ k, k < (route.length - 1) * 500 →
        ticking route ((tick route bear)^[k] (initAnim route b0)))) ∧
    (route.length ≤ 1 → ∀ s : AnimState B, tick route bear s = s) := by
  constructor
  · intro hN
    have hb := run_boundary route bear b0 (route.length - 1) (by omega)
    refine ⟨by rw [hb], ?_, ?_⟩
    · rw [hb]
      simp only [ticking]
      omega
    · intro k hk
      have hdm := Nat.div_add_mod k 500
      have hjlt : k % 500 < 500 := Nat.mod_lt _ (by omega)
      have hmlt : k / 500 < route.length - 1 :=
        (Nat.div_lt_iff_lt_mul (by omega : 0 < 500)).mpr hk
      rcases Nat.eq_zero_or_pos (k % 500) with hj0 | hj1
      · have hkeq : k = (k / 500) * 500 := by omega
        rw [hkeq, run_boundary route bear b0 (k / 500) (by omega)]
        simp only [ticking]
        omega
      · have hkeq : k = (k / 500) * 500 + k % 500 := by omega
        rw [hkeq, run_mid route bear b0 (k / 500) (k % 500) (by omega) hj1 (by omega)]
        simp only [ticking]
        omega
  · intro hlen s
    exact tick_terminal route bear s (by omega)

/-- Witness for C2_animator_termination on a concrete two-waypoint route. -/
theorem C2_animator_termination_witness :
    2 ≤ demoRoute.length ∧
    ((tick demoRoute zeroBearing)^[(demoRoute.length - 1) * 500]
        (initAnim demoRoute (0 : ℤ))).idx = demoRoute.length - 1 := by
  refine ⟨by decide, ?_⟩
  exact ((C2_animator_termination demoRoute zeroBearing (0 : ℤ)).1 (by decide)).1

/-- Claim C4: on every tick that reports a position, the advanced progress p
lies in [0, 1) and the reported position equals start + (end - start) * p
component-wise on the current segment. -/
theorem C4_position_linear_interpolation {B : Type} (route : List (ℚ × ℚ))
    (bear : ℚ × ℚ → ℚ × ℚ → B) (s : AnimState B)
    (h : ticking route s) (h0 : 0 ≤ s.progress) (hlt : s.progress + stepSize < 1) :
    0 ≤ s.progress + stepSize ∧ s.progress + stepSize < 1 ∧
    (tick route bear s).pos
      = ((route.getD s.idx (0, 0)).1
          + ((route.getD (s.idx + 1) (0, 0)).1 - (route.getD s.idx (0, 0)).1)
              * (s.progress + stepSize),
         (route.getD s.idx (0, 0)).2
          + ((route.getD (s.idx + 1) (0, 0)).2 - (route.getD s.idx (0, 0)).2)
              * (s.progress + stepSize)) := by
  have hs : (0:ℚ) < stepSize := by norm_num [stepSize]
  refine ⟨by linarith, hlt, ?_⟩
  rw [tick_mid_eq route bear s s.idx s.progress rfl rfl h (not_le.mpr hlt)]
  rfl

/-- Witness for C4_position_linear_interpolation on a concrete route and the
initial animator state. -/
theorem C4_position_linear_interpolation_witness :
    ticking demoRoute (initAnim demoRoute (0 : ℤ)) ∧
    0 ≤ (initAnim demoRoute (0 : ℤ)).progress ∧
    (initAnim demoRoute (0 : ℤ)).progress + stepSize < 1 ∧
    (tick demoRoute zeroBearing (initAnim demoRoute (0 : ℤ))).pos
      = ((demoRoute.getD ((initAnim demoRoute (0 : ℤ)).idx) (0, 0)).1
          + ((demoRoute.getD ((initAnim demoRoute (0 : ℤ)).idx + 1) (0, 0)).1
              - (demoRoute.getD ((initAnim demoRoute (0 : ℤ)).idx) (0, 0)).1)
              * ((initAnim demoRoute (0 : ℤ)).progress + stepSize),
         (demoRoute.getD ((initAnim demoRoute (0 : ℤ)).idx) (0, 0)).2
          + ((demoRoute.getD ((initAnim demoRoute (0 : ℤ)).idx + 1) (0, 0)).2
              - (demoRoute.getD ((initAnim demoRoute (0 : ℤ)).idx) (0, 0)).2)
              * ((initAnim demoRoute (0 : ℤ)).progress + stepSize)) := by
  have h1 : ticking demoRoute (initAnim demoRoute (0 : ℤ)) := by
    simp [ticking, initAnim, demoRoute]
  have h2 : 0 ≤ (initAnim demoRoute (0 : ℤ)).progress := by
    norm_num [initAnim]
  have h3 : (initAnim demoRoute (0 : ℤ)).progress + stepSize < 1 := by
    norm_num [initAnim, stepSize]
  exact ⟨h1, h2, h3,
    (C4_position_linear_interpolation demoRoute zeroBearing
      (initAnim demoRoute (0 : ℤ)) h1 h2 h3).2.2⟩

lemma run_stable {B : Type} (route : List (ℚ × ℚ)) (bear : ℚ × ℚ → ℚ × ℚ → B)
    (b0 : B) (hN : 2 ≤ route.length) :
    ∀ k, (route.length - 1) * 500 ≤ k →
      (tick route bear)^[k] (initAnim route b0)
        = (tick route bear)^[(route.length - 1) * 500] (initAnim route b0) := by
  intro k hk
  obtain ⟨d, rfl⟩ : ∃ d, k = d + (route.length - 1) * 500 :=
    ⟨k - (route.length - 1) * 500, by omega⟩
  rw [Function.iterate_add_apply]
  apply run_fix
  rw [run_boundary route bear b0 (route.length - 1) (by omega)]
  show ¬ (route.length - 1) + 1 < route.length
  omega

lemma etaOf_closed (len m j : ℕ) :
    etaOf len m ((j : ℚ) / 500)
      = max 1 ⌈(((len : ℚ) - 1) - ((m * 500 + j : ℕ) : ℚ) / 500) * 3⌉ := by
  unfold etaOf
  have harg : (((len : ℚ) - 1 - m) - 1 + (1 - (j : ℚ) / 500)) * 3
      = (((len : ℚ) - 1) - ((m * 500 + j : ℕ) : ℚ) / 500) * 3 := by
    push_cast
    ring
  rw [harg]

lemma eta_closed {B : Type} (route : List (ℚ × ℚ)) (bear : ℚ × ℚ → ℚ × ℚ → B)
    (b0 : B) (hN : 2 ≤ route.length) :
    ∀ k, 1 ≤ k → k ≤ (route.length - 1) * 500 →
      ((tick route bear)^[k] (initAnim route b0)).eta
        = max 1 ⌈(((route.length : ℚ) - 1) - (lastComputed k : ℚ) / 500) * 3⌉ := by
  intro k hk1 hk2
  rcases Nat.eq_zero_or_pos (k % 500) with hj0 | hj1
  · obtain ⟨m, rfl⟩ : ∃ m : ℕ, k = m * 500 := ⟨k / 500, by omega⟩
    have hm1 : 1 ≤ m := by omega
    obtain ⟨n, rfl⟩ : ∃ n, m = n + 1 := ⟨m - 1, by omega⟩
    have hmlen : n + 1 < route.length := by omega
    rw [run_boundary route bear b0 (n + 1) hmlen]
    have hlc : lastComputed ((n + 1) * 500) = n * 500 + 499 := by
      unfold lastComputed
      rw [if_pos (by omega)]
      omega
    show etaOf route.length n ((499 : ℚ) / 500) = _
    rw [show ((499 : ℚ)) = ((499 : ℕ) : ℚ) by norm_num]
    rw [etaOf_closed route.length n 499, hlc]
  · obtain ⟨m, j, rfl, hj⟩ : ∃ m j : ℕ, k = m * 500 + j ∧ (1 ≤ j ∧ j ≤ 499) :=
      ⟨k / 500, k % 500, by omega, by omega, by omega⟩
    have hmlt : m + 1 < route.length := by omega
    have hlc : lastComputed (m * 500 + j) = m * 500 + j := by
      unfold lastComputed
      rw [if_neg (by omega)]
    rw [run_mid route bear b0 m j hmlt hj.1 hj.2]
    show etaOf route.length m ((j : ℚ) / 500) = _
    rw [etaOf_closed route.length m j, hlc]

lemma etaMax_mono {a b : ℚ} (hab : a ≤ b) :
    max 1 ⌈a * 3⌉ ≤ max 1 ⌈b * 3⌉ :=
  max_le_max (le_refl 1) (Int.ceil_le_ceil (by linarith))

lemma lastComputed_mono {k1 k2 : ℕ} (h : k1 ≤ k2) :
    lastComputed k1 ≤ lastComputed k2 := by
  unfold lastComputed
  split <;> split <;> omega

/-- Claim C5: during the active animation the ETA stored by each non-boundary
tick (tick number m*500 + j, 1 ≤ j ≤ 499) equals
max(1, ceil((remaining_full_segments + (1 - progress)) * 3)) where
remaining_full_segments = route.length - 1 - m - 1 and progress = j/500; from
the first tick on, the stored ETA never increases from one tick to the next
(boundary ticks leave it unchanged), and it never drops below 1. -/
theorem C5_eta_heuristic {B : Type} (route : List (ℚ × ℚ))
    (bear : ℚ × ℚ → ℚ × ℚ → B) (b0 : B) (hN : 2 ≤ route.length) :
    (∀ m j : ℕ, m + 1 < route.length → 1 ≤ j → j ≤ 499 →
        ((tick route bear)^[m * 500 + j] (initAnim route b0)).eta
          = max 1 ⌈((((route.length : ℚ) - 1 - m) - 1) + (1 - (j : ℚ) / 500)) * 3⌉) ∧
    (∀ k : ℕ, 1 ≤ k →
        ((tick route bear)^[k + 1] (initAnim route b0)).eta
          ≤ ((tick route bear)^[k] (initAnim route b0)).eta) ∧
    (∀ k : ℕ, 1 ≤ k → 1 ≤ ((tick route bear)^[k] (initAnim route b0)).eta) := by
  refine ⟨?_, ?_, ?_⟩
  · intro m j hm hj1 hj2
    rw [run_mid route bear b0 m j hm hj1 hj2]
    rfl
  · intro k hk
    rcases le_or_lt (k + 1) ((route.length - 1) * 500) with hle | hgt
    · rw [eta_closed route bear b0 hN (k + 1) (by omega) hle,
          eta_closed route bear b0 hN k hk (by omega)]
      apply etaMax_mono
      have hc : lastComputed k ≤ lastComputed (k + 1) := lastComputed_mono (by omega)
      have hcq : ((lastComputed k : ℕ) : ℚ) ≤ ((lastComputed (k + 1) : ℕ) : ℚ) := by
        exact_mod_cast hc
      linarith
    · rw [run_stable route bear b0 hN k (by omega),
          run_stable route bear b0 hN (k + 1) (by omega)]
  · intro k hk
    rcases le_or_lt k ((route.length - 1) * 500) with hle | hgt
    · rw [eta_closed route bear b0 hN k hk hle]
      exact le_max_left 1 _
    · rw [run_stable route bear b0 hN k (by omega)]
      rw [eta_closed route bear b0 hN ((route.length - 1) * 500) (by omega) (le_refl _)]
      exact le_max_left 1 _

/-- Witness for C5_eta_heuristic on a concrete two-waypoint route. -/
theorem C5_eta_heuristic_witness :
    2 ≤ demoRoute.length ∧
    ((tick demoRoute zeroBearing)^[1 + 1] (initAnim demoRoute (0 : ℤ))).eta
      ≤ ((tick demoRoute zeroBearing)^[1] (initAnim demoRoute (0 : ℤ))).eta ∧
    1 ≤ ((tick demoRoute zeroBearing)^[1] (initAnim demoRoute (0 : ℤ))).eta := by
  refine ⟨by decide, ?_, ?_⟩
  · exact (C5_eta_heuristic demoRoute zeroBearing (0 : ℤ) (by decide)).2.1 1 (by omega)
  · exact (C5_eta_heuristic demoRoute zeroBearing (0 : ℤ) (by decide)).2.2 1 (by omega)

lemma run_pos_shape {B : Type} (route : List (ℚ × ℚ)) (bear : ℚ × ℚ → ℚ × ℚ → B)
    (b0 : B) (hN : 2 ≤ route.length) :
    ∀ k : ℕ, 1 ≤ k → ∃ m j : ℕ, m + 1 < route.length ∧ 1 ≤ j ∧ j ≤ 499 ∧
      ((tick route bear)^[k] (initAnim route b0)).pos
        = lerp (route.getD m (0, 0)) (route.getD (m + 1) (0, 0)) ((j : ℚ) / 500) := by
  intro k hk
  rcases le_or_lt k ((route.length - 1) * 500) with hle | hgt
  · rcases Nat.eq_zero_or_pos (k % 500) with hj0 | hj1
    · obtain ⟨m, rfl⟩ : ∃ m : ℕ, k = m * 500 := ⟨k / 500, by omega⟩
      have hm1 : 1 ≤ m := by omega
      obtain ⟨n, rfl⟩ : ∃ n, m = n + 1 := ⟨m - 1, by omega⟩
      have hmlen : n + 1 < route.length := by omega
      rw [run_boundary route bear b0 (n + 1) hmlen]
      exact ⟨n, 499, by omega, by omega, le_refl _, rfl⟩
    · obtain ⟨m, j, rfl, hj⟩ : ∃ m j : ℕ, k = m * 500 + j ∧ (1 ≤ j ∧ j ≤ 499) :=
        ⟨k / 500, k % 500, by omega, by omega, by omega⟩
      have hmlt : m + 1 < route.length := by omega
      rw [run_mid route bear b0 m j hmlt hj.1 hj.2]
      exact ⟨m, j, hmlt, hj.1, hj.2, rfl⟩
  · rw [run_stable route bear b0 hN k (by omega)]
    obtain ⟨n, hn⟩ : ∃ n, route.length - 1 = n + 1 := ⟨route.length - 2, by omega⟩
    rw [hn, run_boundary route bear b0 (n + 1) (by omega)]
    exact ⟨n, 499, by omega, by omega, le_refl _, rfl⟩

lemma mockRoute_g0 (u : ℚ × ℚ) :
    (mockRoute u).getD 0 (0, 0) = (u.1 + 0.015, u.2 + 0.015) := rfl

lemma mockRoute_g1 (u : ℚ × ℚ) :
    (mockRoute u).getD 1 (0, 0) = (u.1 + 0.015, u.2 + 0.01) := rfl

lemma mockRoute_g2 (u : ℚ × ℚ) :
    (mockRoute u).getD 2 (0, 0) = (u.1 + 0.005, u.2 + 0.01) := rfl

lemma mockRoute_g3 (u : ℚ × ℚ) :
    (mockRoute u).getD 3 (0, 0) = (u.1 + 0.005, u.2) := rfl

lemma mockRoute_g4 (u : ℚ × ℚ) :
    (mockRoute u).getD 4 (0, 0) = (u.1, u.2) := rfl

/-- Claim C10: a boundary tick (advanced progress reaching 1) only increments
the segment index and resets the progress, leaving the position, the bearing
and the ETA untouched; consequently, on the route the application builds, the
displayed position is never set to an interior waypoint or to the final
waypoint. -/
theorem C10_boundary_tick_frame_effect {B : Type} (route : List (ℚ × ℚ))
    (bear : ℚ × ℚ → ℚ × ℚ → B) (s : AnimState B)
    (h : ticking route s) (hp : 1 ≤ s.progress + stepSize) :
    ((tick route bear s).idx = s.idx + 1 ∧
     (tick route bear s).progress = 0 ∧
     (tick route bear s).pos = s.pos ∧
     (tick route bear s).bearing = s.bearing ∧
     (tick route bear s).eta = s.eta) ∧
    (∀ (u : ℚ × ℚ) (b0 : B) (k : ℕ), 1 ≤ k → ∀ i : ℕ, 1 ≤ i → i < 5 →
        ((tick (mockRoute u) bear)^[k] (initAnim (mockRoute u) b0)).pos
          ≠ (mockRoute u).getD i (0, 0)) := by
  constructor
  · rw [tick_boundary route bear s h hp]
    exact ⟨rfl, rfl, rfl, rfl, rfl⟩
  · intro u b0 k hk i hi1 hi5
    obtain ⟨m, j, hm, hj1, hj2, hpos⟩ :=
      run_pos_shape (mockRoute u) bear b0 (by simp [mockRoute]) k hk
    rw [hpos]
    have hm3 : m ≤ 3 := by
      simp only [mockRoute, List.length_cons, List.length_nil] at hm
      omega
    have hjq1 : (1 : ℚ) ≤ (j : ℚ) := by exact_mod_cast hj1
    have hjq2 : (j : ℚ) ≤ 499 := by exact_mod_cast hj2
    interval_cases m <;> interval_cases i <;>
      simp only [show (0 + 1 : ℕ) = 1 from rfl, show (1 + 1 : ℕ) = 2 from rfl,
        show (2 + 1 : ℕ) = 3 from rfl, show (3 + 1 : ℕ) = 4 from rfl,
        mockRoute_g0, mockRoute_g1, mockRoute_g2, mockRoute_g3, mockRoute_g4,
        lerp] <;>
      intro heq <;>
      rw [Prod.mk.injEq] at heq <;>
      obtain ⟨e1, e2⟩ := heq <;>
      linarith

/-- Witness for C10_boundary_tick_frame_effect at a concrete pre-boundary
state and a concrete route and tick. -/
theorem C10_boundary_tick_frame_effect_witness :
    ticking demoRoute demoBoundaryState ∧
    1 ≤ demoBoundaryState.progress + stepSize ∧
    (tick demoRoute zeroBearing demoBoundaryState).pos = demoBoundaryState.pos ∧
    ((tick (mockRoute (10, 20)) zeroBearing)^[1]
        (initAnim (mockRoute (10, 20)) (0 : ℤ))).pos
      ≠ (mockRoute (10, 20)).getD 4 (0, 0) := by
  have h1 : ticking demoRoute demoBoundaryState := by
    simp [ticking, demoRoute, demoBoundaryState]
  have h2 : 1 ≤ demoBoundaryState.progress + stepSize := by
    norm_num [demoBoundaryState, stepSize]
  have hmain := C10_boundary_tick_frame_effect demoRoute zeroBearing
    demoBoundaryState h1 h2
  exact ⟨h1, h2, hmain.1.2.2.1,
    hmain.2 (10, 20) (0 : ℤ) 1 (by omega) 4 (by omega) (by omega)⟩

/-! ### Proofs: session state machine and SOS scenario -/

lemma sosStateAt_early (s0 : UiState) (t : ℕ) (h : t < 2500) :
    sosStateAt s0 t = { s0 with phase := Phase.dispatching } := by
  have h2 : ¬ (2500 ≤ t) := by omega
  have h3 : ¬ (2500 + 3000 ≤ t) := by omega
  simp [sosStateAt, sosEvents, List.filter_cons, h2, h3]

lemma sosStateAt_mid (s0 : UiState) (t : ℕ) (h1 : 2500 ≤ t) (h2 : t < 2500 + 3000) :
    sosStateAt s0 t
      = { s0 with phase := Phase.active, aiSuggestions := dispatchTips } := by
  have h3 : ¬ (2500 + 3000 ≤ t) := by omega
  simp [sosStateAt, sosEvents, List.filter_cons, h1, h3]

lemma sosStateAt_late (s0 : UiState) (t : ℕ) (h1 : 2500 + 3000 ≤ t) :
    sosStateAt s0 t
      = { phase := Phase.active, aiSuggestions := dispatchTips,
          isIncomingCall := true } := by
  have h2 : 2500 ≤ t := by omega
  simp [sosStateAt, sosEvents, List.filter_cons, h1, h2]

/-- Claim C7: after an SOS tap the phase becomes the dispatching screen; 2500
ms later the phase becomes active and the guidance list is populated with
exactly the 3 fixed entries; a further 3000 ms later (and not before) the
incoming-call flag is set. -/
theorem C7_sos_scenario (s0 : UiState) :
    (∀ t : ℕ, t < 2500 → (sosStateAt s0 t).phase = Phase.dispatching) ∧
    (∀ t : ℕ, 2500 ≤ t → (sosStateAt s0 t).phase = Phase.active) ∧
    (∀ t : ℕ, 2500 ≤ t →
        (sosStateAt s0 t).aiSuggestions = dispatchTips ∧
        (sosStateAt s0 t).aiSuggestions.length = 3) ∧
    (∀ t : ℕ, t < 2500 + 3000 → (sosStateAt s0 t).isIncomingCall = s0.isIncomingCall) ∧
    (∀ t : ℕ, 2500 + 3000 ≤ t → (sosStateAt s0 t).isIncomingCall = true) := by
  refine ⟨?_, ?_, ?_, ?_, ?_⟩
  · intro t ht
    rw [sosStateAt_early s0 t ht]
  · intro t ht
    rcases lt_or_le t (2500 + 3000) with h | h
    · rw [sosStateAt_mid s0 t ht h]
    · rw [sosStateAt_late s0 t h]
  · intro t ht
    rcases lt_or_le t (2500 + 3000) with h | h
    · rw [sosStateAt_mid s0 t ht h]
      exact ⟨rfl, rfl⟩
    · rw [sosStateAt_late s0 t h]
      exact ⟨rfl, rfl⟩
  · intro t ht
    rcases lt_or_le t 2500 with h | h
    · rw [sosStateAt_early s0 t h]
    · rw [sosStateAt_mid s0 t h ht]
  · intro t ht
    rw [sosStateAt_late s0 t ht]

/-- Witness for C7_sos_scenario at concrete times on the initial state. -/
theorem C7_sos_scenario_witness :
    (sosStateAt initialUi 100).phase = Phase.dispatching ∧
    (sosStateAt initialUi 2500).phase = Phase.active ∧
    (sosStateAt initialUi 2500).aiSuggestions.length = 3 ∧
    (sosStateAt initialUi 5000).isIncomingCall = initialUi.isIncomingCall ∧
    (sosStateAt initialUi 5500).isIncomingCall = true := by
  refine ⟨(C7_sos_scenario initialUi).1 100 (by omega),
    (C7_sos_scenario initialUi).2.1 2500 (by omega),
    ((C7_sos_scenario initialUi).2.2.1 2500 (by omega)).2,
    (C7_sos_scenario initialUi).2.2.2.1 5000 (by omega),
    (C7_sos_scenario initialUi).2.2.2.2 5500 (by omega)⟩

/-- Claim C8 (counterexample): triggering SOS while the phase is already
active does not leave the phase unchanged, and it schedules a fresh timer;
the transition is not a guarded no-op. -/
theorem C8_counterexample_sos_while_active :
    ¬ ((triggerSOS activeUi).1.phase = Phase.active ∧ (triggerSOS activeUi).2 = 0) := by
  intro hcontra
  have h1 : (triggerSOS activeUi).1.phase = Phase.dispatching := rfl
  rw [h1] at hcontra
  exact Phase.noConfusion hcontra.1

/-- Claim C8 (amended): triggerSOS is unguarded: invoked from any state,
including the dispatching and active phases, it sets the phase back to the
dispatching screen and schedules one fresh dispatch timer (restarting the
scenario), leaving the other fields unchanged; the phase therefore does not
only move forward. -/
theorem C8_sos_unguarded (s : UiState) :
    (triggerSOS s).1.phase = Phase.dispatching ∧
    (triggerSOS s).2 = 1 ∧
    (triggerSOS s).1.aiSuggestions = s.aiSuggestions ∧
    (triggerSOS s).1.isIncomingCall = s.isIncomingCall :=
  ⟨rfl, rfl, rfl, rfl⟩

/-! ### Proofs: live-session initialisation guard -/

/-- Claim C9: with the API credential absent, call initialisation returns
before acquiring anything: no audio context is created, no microphone stream
is requested, no video element is bound and no remote session is opened,
whatever the microphone grant or the video flag would have been. -/
theorem C9_missing_credential_no_op (micGranted isVideoActive : Bool) :
    initLiveSession none micGranted isVideoActive = [] ∧
    ∀ a : InitAction, a ∉ initLiveSession none micGranted isVideoActive := by
  refine ⟨rfl, ?_⟩
  intro a ha
  rw [show initLiveSession none micGranted isVideoActive = [] from rfl] at ha
  exact (List.not_mem_nil a) ha

/-! ### Proofs: compass bearing -/

lemma jsMod_360_bounds {a : ℝ} (ha : 0 < a) :
    0 ≤ jsMod a 360 ∧ jsMod a 360 < 360 := by
  unfold jsMod jsTrunc
  rw [if_pos (div_nonneg (le_of_lt ha) (by norm_num))]
  have hta : a = 360 * (a / 360) := by field_simp
  have hf1 := Int.floor_le (a / 360)
  have hf2 := Int.lt_floor_add_one (a / 360)
  constructor <;> linarith

lemma jsMod_eq_self {a : ℝ} (h0 : 0 ≤ a) (h1 : a < 360) : jsMod a 360 = a := by
  unfold jsMod jsTrunc
  rw [if_pos (div_nonneg h0 (by norm_num))]
  have hfl : ⌊a / 360⌋ = 0 := by
    rw [Int.floor_eq_zero_iff]
    refine ⟨div_nonneg h0 (by norm_num), ?_⟩
    rw [div_lt_one (by norm_num : (0:ℝ) < 360)]
    exact h1
  rw [hfl]
  simp

lemma jsMod_sub_360 {a : ℝ} (h0 : 360 ≤ a) (h1 : a < 720) : jsMod a 360 = a - 360 := by
  unfold jsMod jsTrunc
  rw [if_pos (div_nonneg (by linarith) (by norm_num))]
  have hfl : ⌊a / 360⌋ = 1 := by
    rw [Int.floor_eq_iff]
    constructor
    · push_cast
      rw [le_div_iff₀ (by norm_num : (0:ℝ) < 360)]
      linarith
    · push_cast
      rw [div_lt_iff₀ (by norm_num : (0:ℝ) < 360)]
      linarith
  rw [hfl]
  push_cast
  ring

lemma getBearing_expand (s f : ℝ × ℝ) :
    getBearing s f
      = jsMod (atan2 (Real.sin (f.2 * Real.pi / 180 - s.2 * Real.pi / 180)
              * Real.cos (f.1 * Real.pi / 180))
            (Real.cos (s.1 * Real.pi / 180) * Real.sin (f.1 * Real.pi / 180)
              - Real.sin (s.1 * Real.pi / 180) * Real.cos (f.1 * Real.pi / 180)
                * Real.cos (f.2 * Real.pi / 180 - s.2 * Real.pi / 180))
            * 180 / Real.pi + 360) 360 := rfl

lemma getBearing_mk (a b c e : ℝ) :
    getBearing (a, b) (c, e)
      = jsMod (atan2 (Real.sin (e * Real.pi / 180 - b * Real.pi / 180)
              * Real.cos (c * Real.pi / 180))
            (Real.cos (a * Real.pi / 180) * Real.sin (c * Real.pi / 180)
              - Real.sin (a * Real.pi / 180) * Real.cos (c * Real.pi / 180)
                * Real.cos (e * Real.pi / 180 - b * Real.pi / 180))
            * 180 / Real.pi + 360) 360 := rfl

lemma atan2_deg_bounds (y x : ℝ) :
    -180 < atan2 y x * 180 / Real.pi ∧ atan2 y x * 180 / Real.pi ≤ 180 := by
  have hπ := Real.pi_pos
  unfold atan2
  have h1 := Complex.neg_pi_lt_arg { re := x, im := y }
  have h2 := Complex.arg_le_pi { re := x, im := y }
  constructor
  · rw [lt_div_iff₀ hπ]
    linarith
  · rw [div_le_iff₀ hπ]
    linarith

lemma jsMod_deg_bounds (y x : ℝ) :
    0 ≤ jsMod (atan2 y x * 180 / Real.pi + 360) 360 ∧
    jsMod (atan2 y x * 180 / Real.pi + 360) 360 < 360 := by
  apply jsMod_360_bounds
  have := (atan2_deg_bounds y x).1
  linarith

lemma sin_deg_pos {d : ℝ} (hd0 : 0 < d) (hd1 : d < 180) :
    0 < Real.sin (d * Real.pi / 180) := by
  apply Real.sin_pos_of_pos_of_lt_pi
  · exact div_pos (mul_pos hd0 Real.pi_pos) (by norm_num)
  · rw [div_lt_iff₀ (by norm_num : (0:ℝ) < 180)]
    have hd2 : 0 < (180 - d) * Real.pi := mul_pos (by linarith) Real.pi_pos
    nlinarith

lemma getBearing_north (lat lng d : ℝ) (hd0 : 0 < d) (hd1 : d < 180) :
    getBearing (lat, lng) (lat + d, lng) = 0 := by
  rw [getBearing_mk]
  simp only [sub_self, Real.sin_zero, Real.cos_zero, zero_mul, mul_one]
  have hx : Real.cos (lat * Real.pi / 180) * Real.sin ((lat + d) * Real.pi / 180)
      - Real.sin (lat * Real.pi / 180) * Real.cos ((lat + d) * Real.pi / 180)
      = Real.sin (d * Real.pi / 180) := by
    have harg : d * Real.pi / 180
        = (lat + d) * Real.pi / 180 - lat * Real.pi / 180 := by ring
    rw [harg, Real.sin_sub]
    ring
  rw [hx]
  have harg : atan2 0 (Real.sin (d * Real.pi / 180)) = 0 := by
    unfold atan2
    exact Complex.arg_eq_zero_iff.mpr ⟨le_of_lt (sin_deg_pos hd0 hd1), rfl⟩
  rw [harg, zero_mul, zero_div, zero_add]
  rw [jsMod_sub_360 (by norm_num) (by norm_num)]
  norm_num

lemma getBearing_south (lat lng d : ℝ) (hd0 : 0 < d) (hd1 : d < 180) :
    getBearing (lat, lng) (lat - d, lng) = 180 := by
  have hπ := Real.pi_pos
  rw [getBearing_mk]
  simp only [sub_self, Real.sin_zero, Real.cos_zero, zero_mul, mul_one]
  have hx : Real.cos (lat * Real.pi / 180) * Real.sin ((lat - d) * Real.pi / 180)
      - Real.sin (lat * Real.pi / 180) * Real.cos ((lat - d) * Real.pi / 180)
      = -Real.sin (d * Real.pi / 180) := by
    have harg : (lat - d) * Real.pi / 180 - lat * Real.pi / 180
        = -(d * Real.pi / 180) := by ring
    have hsub : Real.sin ((lat - d) * Real.pi / 180 - lat * Real.pi / 180)
        = Real.sin ((lat - d) * Real.pi / 180) * Real.cos (lat * Real.pi / 180)
          - Real.cos ((lat - d) * Real.pi / 180) * Real.sin (lat * Real.pi / 180) :=
      Real.sin_sub _ _
    rw [harg, Real.sin_neg] at hsub
    linarith [hsub]
  rw [hx]
  have harg : atan2 0 (-Real.sin (d * Real.pi / 180)) = Real.pi := by
    unfold atan2
    exact Complex.arg_eq_pi_iff.mpr ⟨neg_neg_of_pos (sin_deg_pos hd0 hd1), rfl⟩
  rw [harg]
  have hdeg : Real.pi * 180 / Real.pi + 360 = 540 := by
    have hne := Real.pi_ne_zero
    field_simp
    norm_num
  rw [hdeg, jsMod_sub_360 (by norm_num) (by norm_num)]
  norm_num

lemma getBearing_east_equator (lng d : ℝ) (hd0 : 0 < d) (hd1 : d < 180) :
    getBearing (0, lng) (0, lng + d) = 90 := by
  rw [getBearing_mk]
  have hdl : (lng + d) * Real.pi / 180 - lng * Real.pi / 180
      = d * Real.pi / 180 := by ring
  rw [hdl]
  simp only [zero_mul, zero_div, Real.sin_zero, Real.cos_zero, mul_one, mul_zero,
    one_mul, sub_zero]
  have harg : atan2 (Real.sin (d * Real.pi / 180)) 0 = Real.pi / 2 := by
    unfold atan2
    exact Complex.arg_eq_pi_div_two_iff.mpr ⟨rfl, sin_deg_pos hd0 hd1⟩
  rw [harg]
  have hdeg : Real.pi / 2 * 180 / Real.pi + 360 = 450 := by
    have hne := Real.pi_ne_zero
    field_simp
    ring
  rw [hdeg, jsMod_sub_360 (by norm_num) (by norm_num)]
  norm_num

lemma getBearing_west_equator (lng d : ℝ) (hd0 : 0 < d) (hd1 : d < 180) :
    getBearing (0, lng) (0, lng - d) = 270 := by
  rw [getBearing_mk]
  have hdl : (lng - d) * Real.pi / 180 - lng * Real.pi / 180
      = -(d * Real.pi / 180) := by ring
  rw [hdl]
  simp only [zero_mul, zero_div, Real.sin_zero, Real.cos_zero, mul_one, mul_zero,
    one_mul, sub_zero, Real.sin_neg]
  have harg : atan2 (-Real.sin (d * Real.pi / 180)) 0 = -(Real.pi / 2) := by
    unfold atan2
    exact Complex.arg_eq_neg_pi_div_two_iff.mpr
      ⟨rfl, neg_neg_of_pos (sin_deg_pos hd0 hd1)⟩
  rw [harg]
  have hdeg : -(Real.pi / 2) * 180 / Real.pi + 360 = 270 := by
    have hne := Real.pi_ne_zero
    field_simp
    ring
  rw [hdeg, jsMod_eq_self (by norm_num) (by norm_num)]

/-- Claim C6 (counterexample): the due-east segment from (45, 0) to (45, 90)
does not yield a bearing of exactly 90 degrees: off the equator the
great-circle initial bearing of a constant-latitude segment is strictly less
than 90. -/
theorem C6_counterexample_east_off_equator :
    getBearing (45, 0) (45, 90) ≠ 90 := by
  have hπ := Real.pi_pos
  rw [getBearing_mk]
  have hdl : (90:ℝ) * Real.pi / 180 - 0 * Real.pi / 180 = Real.pi / 2 := by ring
  have h45 : (45:ℝ) * Real.pi / 180 = Real.pi / 4 := by ring
  rw [hdl, h45]
  rw [Real.sin_pi_div_two, Real.cos_pi_div_two, one_mul, mul_zero, sub_zero]
  have hy : 0 < Real.cos (Real.pi / 4) := by
    rw [Real.cos_pi_div_four]
    positivity
  have hx : 0 < Real.cos (Real.pi / 4) * Real.sin (Real.pi / 4) := by
    rw [Real.cos_pi_div_four, Real.sin_pi_div_four]
    positivity
  set θ := atan2 (Real.cos (Real.pi / 4))
      (Real.cos (Real.pi / 4) * Real.sin (Real.pi / 4)) with hθdef
  have hθ1 : 0 ≤ θ := by
    rw [hθdef]
    unfold atan2
    exact Complex.arg_nonneg_iff.mpr (le_of_lt hy)
  have hθ2 : θ < Real.pi / 2 := by
    have habs : |θ| < Real.pi / 2 := by
      rw [hθdef]
      unfold atan2
      exact Complex.abs_arg_lt_pi_div_two_iff.mpr (Or.inl hx)
    exact (abs_lt.mp habs).2
  have hdeg0 : 0 ≤ θ * 180 / Real.pi := by positivity
  have hdeg1 : θ * 180 / Real.pi < 90 := by
    rw [div_lt_iff₀ hπ]
    nlinarith
  rw [jsMod_sub_360 (by linarith) (by linarith)]
  intro hcontra
  linarith

/-- Claim C6 (amended): the bearing always lies in [0, 360); due-north and
due-south segments (latitude offset in (0, 180)) yield exactly 0 and 180
whatever the offset, hence these values are invariant to uniform scaling; and
due-east and due-west segments yield exactly 90 and 270 when the start point
lies on the equator. Off the equator the exact east/west values (and with
them general scale invariance) fail, as the counterexample shows. -/
theorem C6_bearing_properties :
    (∀ s f : ℝ × ℝ, 0 ≤ getBearing s f ∧ getBearing s f < 360) ∧
    (∀ lat lng d : ℝ, 0 < d → d < 180 → getBearing (lat, lng) (lat + d, lng) = 0) ∧
    (∀ lat lng d : ℝ, 0 < d → d < 180 → getBearing (lat, lng) (lat - d, lng) = 180) ∧
    (∀ lng d : ℝ, 0 < d → d < 180 → getBearing (0, lng) (0, lng + d) = 90) ∧
    (∀ lng d : ℝ, 0 < d → d < 180 → getBearing (0, lng) (0, lng - d) = 270) := by
  refine ⟨?_, ?_, ?_, ?_, ?_⟩
  · intro s f
    rw [getBearing_expand]
    exact jsMod_deg_bounds _ _
  · exact getBearing_north
  · exact getBearing_south
  · exact getBearing_east_equator
  · exact getBearing_west_equator

/-- Witness for C6_bearing_properties at concrete segments. -/
theorem C6_bearing_properties_witness :
    (0 ≤ getBearing (1, 2) (3, 4) ∧ getBearing (1, 2) (3, 4) < 360) ∧
    ((0:ℝ) < 30 ∧ (30:ℝ) < 180) ∧
    getBearing (10, 20) (10 + 30, 20) = 0 ∧
    getBearing (10, 20) (10 - 30, 20) = 180 ∧
    getBearing (0, 20) (0, 20 + 30) = 90 ∧
    getBearing (0, 20) (0, 20 - 30) = 270 := by
  refine ⟨(C6_bearing_properties).1 (1, 2) (3, 4), ⟨by norm_num, by norm_num⟩,
    (C6_bearing_properties).2.1 10 20 30 (by norm_num) (by norm_num),
    (C6_bearing_properties).2.2.1 10 20 30 (by norm_num) (by norm_num),
    (C6_bearing_properties).2.2.2.1 20 30 (by norm_num) (by norm_num),
    (C6_bearing_properties).2.2.2.2 20 30 (by norm_num) (by norm_num)⟩

end SwiftAid
